import Mathlib

/-!
Shallow embedding of the Avox streaming-ad client core:
the ad data store (adDataStore), the websocket session dispatch
(wsService.generateAds), the binary frame codec, and the notification
batching store (notificationStore).  Definitions are translated from the
TypeScript source; JS string-union fields such as
`"pending" | "error" | string | null` are modelled as a tagged variant,
float64 alignment offsets are carried opaquely as rationals, and
randomness (Math.random draws) is supplied by an explicit oracle.
-/

namespace Avox

/-- Model of the union type `"pending" | "error" | T | null` used by the four
progressive fields of `AdData` in adDataStore. -/
inductive FieldState (α : Type) where
  | pending
  | error
  | val (v : α)
  | null
deriving DecidableEq

/-- One transcript sentence alignment (`sentenceAlignment` in ws.schemas):
text with start/end offsets in seconds.  The source carries float64 offsets;
they are never computed with here, so they are carried opaquely as rationals.
The source field `end` is a Lean keyword and is rendered as `stop`. -/
structure Sentence where
  text : String
  start : Rat
  stop : Rat
deriving DecidableEq

/-- One insight entry (`insight` in ws.schemas). -/
structure Insight where
  insight : String
  explanation : String
deriving DecidableEq

/-- The `status` field of `AdData`: `"pending" | "done"`. -/
inductive AdStatus where
  | pending
  | done
deriving DecidableEq

/-- A requested location (`CountryData` in adRequestStore). -/
structure CountryData where
  name : String
  code : String
deriving DecidableEq

/-- Per-item generation state, translated from the `AdData` interface in
adDataStore. -/
structure AdData where
  index : Int
  musicAudioSrc : FieldState String
  nonMusicAudioSrc : FieldState String
  transcriptSents : FieldState (List Sentence)
  englishTranscriptSents : Option (List String)
  insights : FieldState (List Insight)
  location : Option String
  status : AdStatus
  theme : Option String
deriving DecidableEq

/-- `setAds([...currentAds, ad])` as performed by `appendAd`. -/
def appendAd (ad : AdData) (ads : List AdData) : List AdData :=
  ads ++ [ad]

/-- `updateAd`: replace the item whose `index` matches wholesale
(`ads.map(ad => ad.index === updatedAd.index ? updatedAd : ad)`). -/
def updateAd (updatedAd : AdData) (ads : List AdData) : List AdData :=
  ads.map fun ad => if ad.index = updatedAd.index then updatedAd else ad

/-- `getAdLoadingState`: loading iff both variants pending, or one null and
the other pending. -/
def getAdLoadingState (ads : List AdData) (index : Int) : Bool :=
  match ads.find? (fun ad => ad.index == index) with
  | none => false
  | some ad =>
    let musicLoading := decide (ad.musicAudioSrc = FieldState.pending)
    let nonMusicLoading := decide (ad.nonMusicAudioSrc = FieldState.pending)
    let musicNull := decide (ad.musicAudioSrc = FieldState.null)
    let nonMusicNull := decide (ad.nonMusicAudioSrc = FieldState.null)
    (musicLoading && nonMusicLoading) ||
      (musicNull && nonMusicLoading) ||
      (nonMusicNull && musicLoading)

/-- The per-item object spread performed inside `failAllPendingRequests`. -/
def failPendingAd (ad : AdData) : AdData :=
  { ad with
    musicAudioSrc := if ad.musicAudioSrc = FieldState.pending then FieldState.error else ad.musicAudioSrc
    nonMusicAudioSrc := if ad.nonMusicAudioSrc = FieldState.pending then FieldState.error else ad.nonMusicAudioSrc
    transcriptSents := if ad.transcriptSents = FieldState.pending then FieldState.error else ad.transcriptSents
    insights := if ad.insights = FieldState.pending then FieldState.error else ad.insights
    status := if ad.status = AdStatus.pending then AdStatus.done else ad.status }

/-- `failAllPendingRequests`: map every item through the pending-to-error
spread. -/
def failAllPendingRequests (ads : List AdData) : List AdData :=
  ads.map failPendingAd

/-- The per-item object spread performed inside `nullifyAllPendingRequests`. -/
def nullifyPendingAd (ad : AdData) : AdData :=
  { ad with
    musicAudioSrc := if ad.musicAudioSrc = FieldState.pending then FieldState.null else ad.musicAudioSrc
    nonMusicAudioSrc := if ad.nonMusicAudioSrc = FieldState.pending then FieldState.null else ad.nonMusicAudioSrc
    transcriptSents := if ad.transcriptSents = FieldState.pending then FieldState.null else ad.transcriptSents
    insights := if ad.insights = FieldState.pending then FieldState.null else ad.insights
    status := if ad.status = AdStatus.pending then AdStatus.done else ad.status }

/-- `nullifyAllPendingRequests`: map every item through the pending-to-null
spread. -/
def nullifyAllPendingRequests (ads : List AdData) : List AdData :=
  ads.map nullifyPendingAd

/-- The palette inside `getRandomVibrantColor` (helpers/utils). -/
def vibrantColors : List String :=
  ["#FF5733", "#FF6F61", "#FFC300", "#FF33A8", "#00C1D4", "#28B463",
   "#9B59B6", "#E74C3C", "#3498DB", "#F39C12", "#1ABC9C", "#8E44AD"]

/-- `getRandomVibrantColor` picks `vibrantColors[floor(random * 12)]`; the
random draw is supplied as an index oracle value reduced modulo the palette
size. -/
def getRandomVibrantColor (r : Nat) : String :=
  vibrantColors.getD (r % vibrantColors.length) ""

/-- The object literal appended for each country inside `populateAds`. -/
def newAd (index : Nat) (country : CountryData) (color : String) : AdData :=
  { index := Int.ofNat index
    musicAudioSrc := FieldState.pending
    nonMusicAudioSrc := FieldState.pending
    transcriptSents := FieldState.pending
    englishTranscriptSents := none
    insights := FieldState.pending
    location := some country.name
    status := AdStatus.pending
    theme := some color }

/-- `populateAds`: `data.forEach((country, index) => appendAd({...}))`.
The Math.random draw behind each item's theme color is supplied by the
`draws` oracle, indexed by item position. -/
def populateAds (draws : Nat → Nat) (data : List CountryData) (ads : List AdData) : List AdData :=
  data.enum.foldl
    (fun acc p => appendAd (newAd p.1 p.2 (getRandomVibrantColor (draws p.1))) acc) ads

/-! Inbound message payloads (ws.schemas).  `ResponsePayload.parse` restricts
`type` to a closed literal set and strips unknown keys, so a validated text
payload is modelled as a record over those fields with the `type` already a
member of the closed set. -/

/-- The closed `type` literal set of `ResponsePayload`. -/
inductive MsgType where
  | speech
  | merged
  | insight
  | done
  | error
  | fatal_error
  | complete
  | received
  | audio_complete
deriving DecidableEq

/-- The closed `step` literal set (`Step` in ws.schemas). -/
inductive StepType where
  | speech
  | merged
  | insights
  | transcript
  | music
deriving DecidableEq

/-- A payload that passed `ResponsePayload.parse`: every key besides `type`
is optional; `translations` is both optional and nullable (outer `Option` =
key present, inner `Option` = non-null). -/
structure RespPayload where
  type : MsgType
  message : Option String
  index : Option Int
  step : Option StepType
  transcript : Option String
  translations : Option (Option (List String))
  alignments : Option (List Sentence)
  insights : Option (List Insight)
deriving DecidableEq

/-- Result of a successful `AdErrorPayload.parse`. -/
structure AdErrorData where
  step : StepType
  index : Int
  message : String
deriving DecidableEq

/-- `AdErrorPayload.parse`: requires `type = "error"` and the `step`,
`index` and `message` keys all present; a missing key raises (modelled as
`none`). -/
def parseAdErrorPayload (p : RespPayload) : Option AdErrorData :=
  match p.type, p.step, p.index, p.message with
  | MsgType.error, some s, some i, some m => some ⟨s, i, m⟩
  | _, _, _, _ => none

/-- Result of a successful `SpeechResponsePayload.parse`. -/
structure SpeechData where
  index : Int
  transcript : String
  translations : Option (List String)
  alignments : List Sentence
deriving DecidableEq

/-- `SpeechResponsePayload.parse`: requires `type = "speech"`, `index`,
`transcript`, `alignments` present and the `translations` key present
(its value may be null). -/
def parseSpeechResponsePayload (p : RespPayload) : Option SpeechData :=
  match p.type, p.index, p.transcript, p.translations, p.alignments with
  | MsgType.speech, some i, some t, some tr, some al => some ⟨i, t, tr, al⟩
  | _, _, _, _, _ => none

/-- Result of a successful `InsightsResponsePayload.parse`. -/
structure InsightsData where
  index : Int
  insights : List Insight
deriving DecidableEq

/-- `InsightsResponsePayload.parse`: requires `type = "insight"`, `index`
and `insights` present. -/
def parseInsightsResponsePayload (p : RespPayload) : Option InsightsData :=
  match p.type, p.index, p.insights with
  | MsgType.insight, some i, some ins => some ⟨i, ins⟩
  | _, _, _ => none

/-- `FinishedAdPayload.parse`: requires `type = "done"` and `index`. -/
def parseFinishedAdPayload (p : RespPayload) : Option Int :=
  match p.type, p.index with
  | MsgType.done, some i => some i
  | _, _ => none

/-- `MergedAdPayload.parse`: requires `type = "merged"` and `index`. -/
def parseMergedAdPayload (p : RespPayload) : Option Int :=
  match p.type, p.index with
  | MsgType.merged, some i => some i
  | _, _ => none

/-- `handleAdError`: the failure-mapping switch on `errorData.step`.  The
`insights` and `transcript` constructors land in the JS `default` branch. -/
def handleAdError (targetAd : AdData) (errorData : AdErrorData) : AdData :=
  match errorData.step with
  | StepType.merged => { targetAd with musicAudioSrc := FieldState.error }
  | StepType.speech =>
      { targetAd with nonMusicAudioSrc := FieldState.error, transcriptSents := FieldState.error }
  | StepType.music => { targetAd with musicAudioSrc := FieldState.error }
  | StepType.insights =>
      { targetAd with
        musicAudioSrc := FieldState.error
        nonMusicAudioSrc := FieldState.error
        transcriptSents := FieldState.error
        insights := FieldState.error }
  | StepType.transcript =>
      { targetAd with
        musicAudioSrc := FieldState.error
        nonMusicAudioSrc := FieldState.error
        transcriptSents := FieldState.error
        insights := FieldState.error }

/-- Model of JS `transcript.split("\n")`: split on every newline, keeping
empty segments (so the empty string yields `[""]`). -/
def splitLinesAux : List Char → List Char → List String
  | [], acc => [String.mk acc.reverse]
  | c :: cs, acc =>
      if c = '\n' then String.mk acc.reverse :: splitLinesAux cs []
      else splitLinesAux cs (c :: acc)

/-- See `splitLinesAux`. -/
def splitLines (s : String) : List String :=
  splitLinesAux s.toList []

/-- `handleJsonMessage` after `ResponsePayload.parse` succeeded.  `rawEvent`
carries the raw JSON `event` key consulted before dispatch (the
"transcription" ping short-circuit).  A nested zod parse failure aborts the
handler before any mutation, leaving the store unchanged.  After the switch
the (possibly stale) target is written back through `updateAd`. -/
def handleJsonMessage (rawEvent : Option String) (ads : List AdData)
    (p : RespPayload) : List AdData :=
  if rawEvent = some "transcription" then ads
  else
    let target := p.index.bind fun i => ads.find? fun ad => ad.index == i
    match p.type with
    | MsgType.insight =>
        match target with
        | some ad =>
            match parseInsightsResponsePayload p with
            | some d => updateAd { ad with insights := FieldState.val d.insights } ads
            | none => ads
        | none => ads
    | MsgType.done =>
        match target with
        | some ad =>
            match parseFinishedAdPayload p with
            | some _ => updateAd { ad with status := AdStatus.done } ads
            | none => ads
        | none => ads
    | MsgType.complete =>
        let ads1 := nullifyAllPendingRequests ads
        match target with
        | some ad => updateAd ad ads1
        | none => ads1
    | MsgType.error =>
        match target with
        | some ad =>
            match parseAdErrorPayload p with
            | some e => updateAd (handleAdError ad e) ads
            | none => ads
        | none => ads
    | _ =>
        match target with
        | some ad => updateAd ad ads
        | none => ads

/-- The dispatch run by `handleBlobMessage` once the binary frame is split
and its metadata validated; `audioUrl` is the freshly minted object URL over
the audio remainder. -/
def dispatchBlobMetadata (audioUrl : String) (ads : List AdData)
    (metadata : RespPayload) : List AdData :=
  let target := metadata.index.bind fun i => ads.find? fun ad => ad.index == i
  match metadata.type with
  | MsgType.speech =>
      match target with
      | some ad =>
          match parseSpeechResponsePayload metadata with
          | some d =>
              let ad1 :=
                { ad with
                  nonMusicAudioSrc := FieldState.val audioUrl
                  transcriptSents := FieldState.val d.alignments }
              let ad2 :=
                match d.translations with
                | some _ => { ad1 with englishTranscriptSents := some (splitLines d.transcript) }
                | none => ad1
              updateAd ad2 ads
          | none => ads
      | none => ads
  | MsgType.merged =>
      match target with
      | some ad =>
          match parseMergedAdPayload metadata with
          | some _ => updateAd { ad with musicAudioSrc := FieldState.val audioUrl } ads
          | none => ads
      | none => ads
  | _ =>
      match target with
      | some ad => updateAd ad ads
      | none => ads

/-! Binary frame codec (`handleBlobMessage`, lines 118-135 of the session
file): `[u32 LE length L][L metadata bytes][audio bytes]`. -/

/-- `DataView.getUint32(0, true)`: little-endian u32 from the first four
bytes; fewer than four bytes raises (modelled as `none`). -/
def readUint32LE (bytes : List Nat) : Option Nat :=
  match bytes with
  | b0 :: b1 :: b2 :: b3 :: _ =>
      some (b0 + b1 * 256 + b2 * 65536 + b3 * 16777216)
  | _ => none

/-- Splitting a binary frame: metadata bytes `[4, 4+L)` and audio remainder
`[4+L, ..)`; a metadata length running past the buffer raises
(`new Uint8Array(buffer, 4, L)` out of range), modelled as `none`. -/
def decodeBinaryFrame (bytes : List Nat) : Option (List Nat × List Nat) :=
  match readUint32LE bytes with
  | none => none
  | some metaLength =>
      if 4 + metaLength ≤ bytes.length then
        some ((bytes.drop 4).take metaLength, bytes.drop (4 + metaLength))
      else none

/-- Little-endian u32 byte serialization of a metadata length. -/
def uint32LEBytes (n : Nat) : List Nat :=
  [n % 256, n / 256 % 256, n / 65536 % 256, n / 16777216 % 256]

/-- A well-formed binary frame: length prefix, metadata bytes, audio bytes. -/
def encodeBinaryFrame (meta audio : List Nat) : List Nat :=
  uint32LEBytes meta.length ++ meta ++ audio

/-! Connection session (`wsService.generateAds`): the socket's `message`,
`close` and `error` listeners, run over a trace of delivered events. -/

/-- A delivered socket event.  Text frames are carried post-validation;
`rawEvent` is the raw JSON `event` key. -/
inductive WsEvent where
  | message (rawEvent : Option String) (payload : RespPayload)
  | close
  | error
deriving DecidableEq

/-- Session state visible to the listeners, with an instrumented counter of
`failAllPendingRequests` invocations so that invocation multiplicity can be
stated. -/
structure SessionState where
  ads : List AdData
  isConnected : Bool
  failCount : Nat
deriving DecidableEq

/-- One listener firing, translated from the `close`, `error` and `message`
handlers registered in `generateAds`.  Both terminal listeners set
`isConnected = false` and call `failAllPendingRequests`; the message
listener dispatches unconditionally (the code never detaches it). -/
def sessionStep (s : SessionState) (e : WsEvent) : SessionState :=
  match e with
  | WsEvent.message rawEvent p => { s with ads := handleJsonMessage rawEvent s.ads p }
  | WsEvent.close =>
      { s with isConnected := false
               ads := failAllPendingRequests s.ads
               failCount := s.failCount + 1 }
  | WsEvent.error =>
      { s with isConnected := false
               ads := failAllPendingRequests s.ads
               failCount := s.failCount + 1 }

/-- Run the session listeners over a trace of delivered events. -/
def runSession (s : SessionState) (events : List WsEvent) : SessionState :=
  events.foldl sessionStep s

/-- Whether an event is a terminating transport event (close or error). -/
def isTerminalEvent : WsEvent → Bool
  | WsEvent.close => true
  | WsEvent.error => true
  | WsEvent.message _ _ => false

/-! Notification scheduler (notificationStore). -/

/-- `NotificationType` union. -/
inductive NotificationType where
  | loading
  | ready
  | error
  | celebration
  | batch
deriving DecidableEq

/-- The `'ready' | 'error'` union used by `BatchedUpdate` and `addToBatch`. -/
inductive BatchKind where
  | ready
  | error
deriving DecidableEq

/-- The `'loading' | 'ready' | 'error'` union taken by `handleTrackUpdate`. -/
inductive UpdateKind where
  | loading
  | ready
  | error
deriving DecidableEq

/-- A surfaced notification.  `addNotification` always assigns a duration,
so the stored record carries a plain `Nat`. -/
structure Notification where
  id : String
  type : NotificationType
  title : String
  message : String
  trackIndex : Option Int
  timestamp : Nat
  duration : Nat
deriving DecidableEq

/-- The `Omit<Notification, 'id' | 'timestamp'>` input of
`addNotification`, with its optional duration. -/
structure NotificationInput where
  type : NotificationType
  title : String
  message : String
  trackIndex : Option Int
  duration : Option Nat
deriving DecidableEq

/-- A pending batch accumulator entry. -/
structure BatchedUpdate where
  type : BatchKind
  trackIndexes : List Int
  timestamp : Nat
deriving DecidableEq

/-- Notification store state.  The JS timer handle is modelled as the
scheduled fire time (`now + 5000`); `none` means no timer armed. -/
structure NotificationState where
  notifications : List Notification
  activeTrackIndex : Option Int
  batchedUpdates : List BatchedUpdate
  batchTimer : Option Nat
deriving DecidableEq

/-- `addNotification`: append with `duration: notification.duration || 4000`
(JS `||`, so an explicit 0 also falls back to 4000).  The fresh random id
and the current time are supplied by the caller; the scheduled
auto-removal only affects later visibility and is not modelled. -/
def addNotification (id : String) (now : Nat) (n : NotificationInput)
    (s : NotificationState) : NotificationState :=
  let dur :=
    match n.duration with
    | some d => if d = 0 then 4000 else d
    | none => 4000
  { s with notifications :=
      s.notifications ++ [⟨id, n.type, n.title, n.message, n.trackIndex, now, dur⟩] }

/-- In-place mutation of the first batch of a kind
(`existingBatch.trackIndexes.push(...)` on the result of `find`). -/
def updateFirstBatch (k : BatchKind) (f : BatchedUpdate → BatchedUpdate) :
    List BatchedUpdate → List BatchedUpdate
  | [] => []
  | b :: bs => if b.type = k then f b :: bs else b :: updateFirstBatch k f bs

/-- `addToBatch`: merge into the existing batch of this kind (or open a new
one), then clear any armed quiet-period timer and arm a fresh 5000 ms one. -/
def addToBatch (now : Nat) (trackIndex : Int) (k : BatchKind)
    (s : NotificationState) : NotificationState :=
  let updates :=
    match s.batchedUpdates.find? (fun b => decide (b.type = k)) with
    | some _ =>
        updateFirstBatch k
          (fun b => { b with trackIndexes := b.trackIndexes ++ [trackIndex], timestamp := now })
          s.batchedUpdates
    | none => s.batchedUpdates ++ [⟨k, [trackIndex], now⟩]
  { s with batchedUpdates := updates, batchTimer := some (now + 5000) }

/-- `Track ${trackIndex + 1}`. -/
def trackLabel (trackIndex : Int) : String :=
  "Track " ++ toString (trackIndex + 1)

/-- `createActiveTrackNotification` for the three outcomes reachable from
`handleTrackUpdate` (the JS `default` branch is unreachable there). -/
def createActiveTrackNotification (trackIndex : Int) (t : UpdateKind) : NotificationInput :=
  match t with
  | UpdateKind.loading =>
      ⟨NotificationType.loading, "Cooking your audio ad...",
        trackLabel trackIndex ++ " is being generated", some trackIndex, some 3000⟩
  | UpdateKind.ready =>
      ⟨NotificationType.ready, "🔥 Track ready!",
        trackLabel trackIndex ++ " is ready to play", some trackIndex, some 3000⟩
  | UpdateKind.error =>
      ⟨NotificationType.error, "Generation failed",
        trackLabel trackIndex ++ " encountered an error", some trackIndex, some 6000⟩

/-- `createErrorNotification`: the immediate unfocused-item failure alert. -/
def createErrorNotification (trackIndex : Int) : NotificationInput :=
  ⟨NotificationType.error, "Track failed",
    trackLabel trackIndex ++ " needs attention", some trackIndex, some 8000⟩

/-- `createBatchNotification`: title pluralizes by count; the ready message
lists 1-based numbers comma-joined up to three items, else the generic
summary. -/
def createBatchNotification (batch : BatchedUpdate) : NotificationInput :=
  let count := batch.trackIndexes.length
  let trackList := String.intercalate ", " (batch.trackIndexes.map fun i => toString (i + 1))
  match batch.type with
  | BatchKind.ready =>
      ⟨NotificationType.batch,
        "🎉 " ++ toString count ++ " track" ++ (if count > 1 then "s" else "") ++ " ready!",
        if count > 3 then toString count ++ " more tracks completed"
        else "Tracks " ++ trackList ++ " ready to play",
        none, some 4000⟩
  | BatchKind.error =>
      ⟨NotificationType.batch,
        toString count ++ " track" ++ (if count > 1 then "s" else "") ++ " failed",
        "Tracks " ++ trackList ++ " need attention",
        none, some 6000⟩

/-- `handleTrackUpdate`: focused items notify immediately; unfocused errors
notify immediately; unfocused ready events join the batch; unfocused
loading events are dropped. -/
def handleTrackUpdate (id : String) (now : Nat) (trackIndex : Int)
    (t : UpdateKind) (s : NotificationState) : NotificationState :=
  if s.activeTrackIndex = some trackIndex then
    addNotification id now (createActiveTrackNotification trackIndex t) s
  else
    match t with
    | UpdateKind.error => addNotification id now (createErrorNotification trackIndex) s
    | UpdateKind.ready => addToBatch now trackIndex BatchKind.ready s
    | UpdateKind.loading => s

/-- The `forEach` body of `processBatchedUpdates`: surface one batch
notification per non-empty accumulated batch, ids drawn from `ids` in
emission order. -/
def flushBatches (ids : Nat → String) (now : Nat) :
    List BatchedUpdate → Nat → NotificationState → NotificationState
  | [], _, s => s
  | b :: bs, k, s =>
      if b.trackIndexes.length > 0 then
        flushBatches ids now bs (k + 1) (addNotification (ids k) now (createBatchNotification b) s)
      else flushBatches ids now bs k s

/-- `processBatchedUpdates`: flush every accumulated batch, then clear the
accumulator list and the timer. -/
def processBatchedUpdates (ids : Nat → String) (now : Nat)
    (s : NotificationState) : NotificationState :=
  let s1 := flushBatches ids now s.batchedUpdates 0 s
  { s1 with batchedUpdates := [], batchTimer := none }

/-! Concrete stores and payloads used in example instantiations. -/

/-- A freshly populated item at a given index: every data field pending. -/
def mkPendingAd (i : Int) : AdData :=
  { index := i
    musicAudioSrc := FieldState.pending
    nonMusicAudioSrc := FieldState.pending
    transcriptSents := FieldState.pending
    englishTranscriptSents := none
    insights := FieldState.pending
    location := none
    status := AdStatus.pending
    theme := none }

/-- Item 2 with music still pending and the speech-only variant ready. -/
def mixedStateAd : AdData :=
  { mkPendingAd 2 with nonMusicAudioSrc := FieldState.val "blob:speech-2" }

/-- Expected image of `mixedStateAd` under `failAllPendingRequests`. -/
def mixedStateAdFailed : AdData :=
  { mixedStateAd with
    musicAudioSrc := FieldState.error
    transcriptSents := FieldState.error
    insights := FieldState.error
    status := AdStatus.done }

/-- A validated error frame whose `step` key is absent. -/
def missingStepErrorPayload : RespPayload :=
  { type := MsgType.error
    message := some "generation failed"
    index := some 3
    step := none
    transcript := none
    translations := none
    alignments := none
    insights := none }

/-- A speech metadata payload carrying a non-null translation list whose
content differs from the transcript. -/
def speechHelloPayload : RespPayload :=
  { type := MsgType.speech
    message := none
    index := some 0
    step := none
    transcript := some "hello"
    translations := some (some ["bonjour"])
    alignments := some []
    insights := none }

/-- A validated error frame with `step: "speech"` aimed at item 3. -/
def speechStepErrorPayload : RespPayload :=
  { type := MsgType.error
    message := some "speech failed"
    index := some 3
    step := some StepType.speech
    transcript := none
    translations := none
    alignments := none
    insights := none }

/-- The failure-mapping table as the spec states it, per step: merged and
music hit only the music variant; speech hits the speech variant and the
transcript; the remaining schema-valid steps hit all four fields.  Spec-side
definition, to be compared with `handleAdError`. -/
def specErrorEffect (ad : AdData) (s : StepType) : AdData :=
  match s with
  | StepType.merged => { ad with musicAudioSrc := FieldState.error }
  | StepType.music => { ad with musicAudioSrc := FieldState.error }
  | StepType.speech =>
      { ad with nonMusicAudioSrc := FieldState.error, transcriptSents := FieldState.error }
  | StepType.insights | StepType.transcript =>
      { ad with
        musicAudioSrc := FieldState.error
        nonMusicAudioSrc := FieldState.error
        transcriptSents := FieldState.error
        insights := FieldState.error }

/-- Item with music pending but the speech-only variant already errored. -/
def loadAdErrPending : AdData :=
  { mkPendingAd 0 with musicAudioSrc := FieldState.error }

/-- Item with music not applicable and the speech-only variant pending. -/
def loadAdNullPending : AdData :=
  { mkPendingAd 0 with musicAudioSrc := FieldState.null }

end Avox

namespace Avox

/-! Theorems. -/

/-- C1: `failAllPendingRequests` turns every field still at pending into
error, sets every item's status to done, and leaves every non-pending field
(and the identity/display fields) unchanged; in particular an item with
music pending and the speech-only variant ready ends with music errored,
the speech-only handle untouched and status done. -/
theorem failAllPendingRequests_spec :
    (∀ ads : List AdData,
      List.Forall₂ (fun a b =>
        b.musicAudioSrc = (if a.musicAudioSrc = FieldState.pending then FieldState.error else a.musicAudioSrc) ∧
        b.nonMusicAudioSrc = (if a.nonMusicAudioSrc = FieldState.pending then FieldState.error else a.nonMusicAudioSrc) ∧
        b.transcriptSents = (if a.transcriptSents = FieldState.pending then FieldState.error else a.transcriptSents) ∧
        b.insights = (if a.insights = FieldState.pending then FieldState.error else a.insights) ∧
        b.status = AdStatus.done ∧
        b.englishTranscriptSents = a.englishTranscriptSents ∧
        b.index = a.index ∧ b.location = a.location ∧ b.theme = a.theme)
        ads (failAllPendingRequests ads)) ∧
    failAllPendingRequests [mixedStateAd] = [mixedStateAdFailed] := by
  constructor
  · intro ads
    induction ads with
    | nil => simp [failAllPendingRequests]
    | cons a as ih =>
      refine List.Forall₂.cons ?_ ih
      obtain ⟨i, m, nm, ts, e, ins, loc, st, th⟩ := a
      cases st <;> simp [failPendingAd, failAllPendingRequests]
  · decide

/-- Pending-to-error is idempotent on a single item. -/
theorem failPendingAd_idem (ad : AdData) :
    failPendingAd (failPendingAd ad) = failPendingAd ad := by
  obtain ⟨i, m, nm, ts, e, ins, loc, st, th⟩ := ad
  cases m <;> cases nm <;> cases ts <;> cases ins <;> cases st <;> rfl

/-- Pending-to-null is idempotent on a single item. -/
theorem nullifyPendingAd_idem (ad : AdData) :
    nullifyPendingAd (nullifyPendingAd ad) = nullifyPendingAd ad := by
  obtain ⟨i, m, nm, ts, e, ins, loc, st, th⟩ := ad
  cases m <;> cases nm <;> cases ts <;> cases ins <;> cases st <;> rfl

/-- `failAllPendingRequests` is idempotent on whole stores. -/
theorem failAllPendingRequests_idem (ads : List AdData) :
    failAllPendingRequests (failAllPendingRequests ads) = failAllPendingRequests ads := by
  simp only [failAllPendingRequests, List.map_map]
  exact List.map_congr_left fun a _ => failPendingAd_idem a

/-- `nullifyAllPendingRequests` is idempotent on whole stores. -/
theorem nullifyAllPendingRequests_idem (ads : List AdData) :
    nullifyAllPendingRequests (nullifyAllPendingRequests ads) = nullifyAllPendingRequests ads := by
  simp only [nullifyAllPendingRequests, List.map_map]
  exact List.map_congr_left fun a _ => nullifyPendingAd_idem a

/-- C9: both bulk terminal operations are idempotent: a second application
of `failAllPendingRequests` or of `nullifyAllPendingRequests` leaves the
collection as after the first. -/
theorem bulkTerminalOps_idempotent (ads : List AdData) :
    failAllPendingRequests (failAllPendingRequests ads) = failAllPendingRequests ads ∧
    nullifyAllPendingRequests (nullifyAllPendingRequests ads) = nullifyAllPendingRequests ads :=
  ⟨failAllPendingRequests_idem ads, nullifyAllPendingRequests_idem ads⟩

/-- C10: applying `updateAd` with a patch whose index matches no item
leaves the collection completely unchanged. -/
theorem updateAd_noMatch_frame (patch : AdData) (ads : List AdData)
    (h : ∀ ad ∈ ads, ad.index ≠ patch.index) : updateAd patch ads = ads := by
  induction ads with
  | nil => rfl
  | cons a as ih =>
    have ha : a.index ≠ patch.index := h a (by simp)
    have hrest : ∀ ad ∈ as, ad.index ≠ patch.index := fun ad had => h ad (by simp [had])
    simp only [updateAd, List.map_cons, if_neg ha]
    have hih := ih hrest
    simp only [updateAd] at hih
    rw [hih]

/-- Witness for C10 at a concrete store and non-matching patch. -/
theorem updateAd_noMatch_frame_witness :
    (∀ ad ∈ [mkPendingAd 0], ad.index ≠ (mkPendingAd 5).index) ∧
    updateAd (mkPendingAd 5) [mkPendingAd 0] = [mkPendingAd 0] :=
  ⟨by decide, updateAd_noMatch_frame _ _ (by decide)⟩

/-- C6: for an item present in the store, `getAdLoadingState` is true
exactly when both audio variants are pending, or one variant is null and
the other pending. -/
theorem getAdLoadingState_iff (ads : List AdData) (index : Int) (ad : AdData)
    (h : ads.find? (fun a => a.index == index) = some ad) :
    getAdLoadingState ads index = true ↔
      (ad.musicAudioSrc = FieldState.pending ∧ ad.nonMusicAudioSrc = FieldState.pending) ∨
      (ad.musicAudioSrc = FieldState.null ∧ ad.nonMusicAudioSrc = FieldState.pending) ∨
      (ad.nonMusicAudioSrc = FieldState.null ∧ ad.musicAudioSrc = FieldState.pending) := by
  simp [getAdLoadingState, h]
  tauto

/-- C2 counterexample: an error frame with no `step` key targeting an
existing all-pending item fails `AdErrorPayload` validation and leaves the
item untouched, instead of setting all four fields to error as claimed. -/
theorem handleAdError_missingStep_counterexample :
    handleJsonMessage none [mkPendingAd 3] missingStepErrorPayload = [mkPendingAd 3] ∧
    (mkPendingAd 3).musicAudioSrc = FieldState.pending ∧
    (mkPendingAd 3).insights = FieldState.pending := by
  decide

/-- `handleAdError` computes exactly the spec-side failure-mapping table. -/
theorem handleAdError_eq_specTable (ad : AdData) (e : AdErrorData) :
    handleAdError ad e = specErrorEffect ad e.step := by
  obtain ⟨s, i, m⟩ := e
  cases s <;> rfl

/-- C2 amended: for an error frame targeting an existing item, if the error
payload validates (its `step`, `index` and `message` keys all present) the
item is rewritten per the failure-mapping table (`specErrorEffect`); if
validation fails — in particular when `step` is missing — the store is left
completely unchanged. -/
theorem handleAdError_failureMapping (ads : List AdData) (p : RespPayload) (ad : AdData)
    (htype : p.type = MsgType.error)
    (hfind : (p.index.bind fun i => ads.find? fun a => a.index == i) = some ad) :
    (∀ e, parseAdErrorPayload p = some e →
        handleJsonMessage none ads p = updateAd (specErrorEffect ad e.step) ads) ∧
    (parseAdErrorPayload p = none → handleJsonMessage none ads p = ads) := by
  constructor
  · intro e he
    simp [handleJsonMessage, htype, hfind, he, handleAdError_eq_specTable]
  · intro hnone
    simp [handleJsonMessage, htype, hfind, hnone]

/-- Witness for C2 amended: the spec example — step speech on an all-pending
item 3 errors exactly the speech variant and the transcript, leaving music
and insights pending. -/
theorem handleAdError_failureMapping_witness :
    handleJsonMessage none [mkPendingAd 3] speechStepErrorPayload =
      [{ mkPendingAd 3 with nonMusicAudioSrc := FieldState.error, transcriptSents := FieldState.error }] := by
  rw [(handleAdError_failureMapping [mkPendingAd 3] speechStepErrorPayload (mkPendingAd 3)
        (by decide) (by decide)).1 ⟨StepType.speech, 3, "speech failed"⟩ (by decide)]
  decide

/-- C5 counterexample: a speech binary message with transcript "hello" and
translation list ["bonjour"] stores englishTranscriptSents = ["hello"] —
the transcript split on newlines — not the supplied translation list. -/
theorem speechBlob_translations_counterexample :
    dispatchBlobMetadata "blob:u1" [mkPendingAd 0] speechHelloPayload =
      [{ mkPendingAd 0 with
          nonMusicAudioSrc := FieldState.val "blob:u1"
          transcriptSents := FieldState.val []
          englishTranscriptSents := some ["hello"] }] ∧
    speechHelloPayload.translations = some (some ["bonjour"]) ∧
    some ["hello"] ≠ some ["bonjour"] := by
  decide

/-- C5 amended: a speech binary message targeting an existing item sets the
speech-only variant to the minted handle and the transcript to the decoded
alignments; when the translation list is non-null the handler sets
englishTranscriptSents to the transcript split on newlines (the translation
list itself only gates and is never stored), else it leaves the field
unchanged. -/
theorem speechBlob_dispatch (ads : List AdData) (p : RespPayload) (url : String)
    (ad : AdData) (d : SpeechData)
    (htype : p.type = MsgType.speech)
    (hfind : (p.index.bind fun i => ads.find? fun a => a.index == i) = some ad)
    (hparse : parseSpeechResponsePayload p = some d) :
    dispatchBlobMetadata url ads p =
      updateAd
        { ad with
          nonMusicAudioSrc := FieldState.val url
          transcriptSents := FieldState.val d.alignments
          englishTranscriptSents :=
            if d.translations.isSome then some (splitLines d.transcript)
            else ad.englishTranscriptSents } ads := by
  cases ht : d.translations with
  | none => simp [dispatchBlobMetadata, htype, hfind, hparse, ht]
  | some l => simp [dispatchBlobMetadata, htype, hfind, hparse, ht]

/-- Witness for C5 amended at the concrete "hello"/"bonjour" payload. -/
theorem speechBlob_dispatch_witness :
    dispatchBlobMetadata "blob:u1" [mkPendingAd 0] speechHelloPayload =
      [{ mkPendingAd 0 with
          nonMusicAudioSrc := FieldState.val "blob:u1"
          transcriptSents := FieldState.val []
          englishTranscriptSents := some ["hello"]
          location := none }] := by
  rw [speechBlob_dispatch [mkPendingAd 0] speechHelloPayload "blob:u1" (mkPendingAd 0)
      ⟨0, "hello", some ["bonjour"], []⟩ (by decide) (by decide) (by decide)]
  decide

/-- `populateAds` is the concatenation of the prior collection with the
freshly built items, one per location in order. -/
theorem populateAds_eq_append (draws : Nat → Nat) (data : List CountryData) (ads : List AdData) :
    populateAds draws data ads =
      ads ++ data.enum.map (fun p => newAd p.1 p.2 (getRandomVibrantColor (draws p.1))) := by
  suffices h : ∀ (l : List (Nat × CountryData)) (acc : List AdData),
      l.foldl (fun acc p => appendAd (newAd p.1 p.2 (getRandomVibrantColor (draws p.1))) acc) acc
        = acc ++ l.map (fun p => newAd p.1 p.2 (getRandomVibrantColor (draws p.1))) by
    simpa [populateAds] using h data.enum ads
  intro l
  induction l with
  | nil => intro acc; simp
  | cons x xs ih =>
    intro acc
    rw [List.foldl_cons, ih]
    simp [appendAd, List.append_assoc]

/-- C4 counterexample: with one pre-existing item, `populateAds` over a
single requested location yields two items, not one item per location. -/
theorem populateAds_counterexample :
    (populateAds (fun _ => 0) [⟨"France", "FR"⟩] [mkPendingAd 0]).length = 2 ∧
    (2 : Nat) ≠ 1 := by
  decide

/-- C4 amended: `populateAds` appends one item per requested location to
whatever collection already exists (it replaces the collection only when
that collection is empty); pre-existing items are untouched, and the k-th
new item carries index k (restarting at 0 regardless of existing items),
the location name, a fresh random theme color drawn per item, all four data
fields pending, no English transcript, and status pending. -/
theorem populateAds_appends (draws : Nat → Nat) (data : List CountryData) (ads : List AdData) :
    populateAds draws data ads =
      ads ++ data.enum.map (fun p => newAd p.1 p.2 (getRandomVibrantColor (draws p.1))) ∧
    (populateAds draws data ads).length = ads.length + data.length ∧
    (∀ k, k < ads.length → (populateAds draws data ads)[k]? = ads[k]?) ∧
    (∀ k c, data[k]? = some c →
      (populateAds draws data ads)[ads.length + k]? =
        some { index := Int.ofNat k
               musicAudioSrc := FieldState.pending
               nonMusicAudioSrc := FieldState.pending
               transcriptSents := FieldState.pending
               englishTranscriptSents := none
               insights := FieldState.pending
               location := some c.name
               status := AdStatus.pending
               theme := some (getRandomVibrantColor (draws k)) }) := by
  refine ⟨populateAds_eq_append draws data ads, ?_, ?_, ?_⟩
  · rw [populateAds_eq_append]
    simp [List.enum_length]
  · intro k hk
    rw [populateAds_eq_append, List.getElem?_append]
    simp [hk]
  · intro k c hc
    rw [populateAds_eq_append, List.getElem?_append]
    simp [List.getElem?_map, List.getElem?_enum, hc, newAd]

/-- Witness for C4 amended: a one-item store plus one location keeps the old
item at position 0 and appends the France item at position 1. -/
theorem populateAds_appends_witness :
    (populateAds (fun _ => 7) [⟨"France", "FR"⟩] [mkPendingAd 9])[0]? = some (mkPendingAd 9) ∧
    (populateAds (fun _ => 7) [⟨"France", "FR"⟩] [mkPendingAd 9])[1]? =
      some { index := 0
             musicAudioSrc := FieldState.pending
             nonMusicAudioSrc := FieldState.pending
             transcriptSents := FieldState.pending
             englishTranscriptSents := none
             insights := FieldState.pending
             location := some "France"
             status := AdStatus.pending
             theme := some (getRandomVibrantColor 7) } := by
  constructor
  · have h := (populateAds_appends (fun _ => 7) [⟨"France", "FR"⟩] [mkPendingAd 9]).2.2.1 0 (by decide)
    simpa using h
  · have h := (populateAds_appends (fun _ => 7) [⟨"France", "FR"⟩] [mkPendingAd 9]).2.2.2 0
      ⟨"France", "FR"⟩ (by decide)
    simpa using h

/-- The number of `failAllPendingRequests` invocations over a trace is the
number of delivered close/error events. -/
theorem runSession_failCount (events : List WsEvent) :
    ∀ s : SessionState,
      (runSession s events).failCount = s.failCount + (events.countP isTerminalEvent) := by
  induction events with
  | nil => intro s; simp [runSession]
  | cons e es ih =>
    intro s
    rw [runSession, List.foldl_cons]
    have h := ih (sessionStep s e)
    rw [runSession] at h
    rw [h]
    cases e <;> simp [sessionStep, isTerminalEvent, List.countP_cons] <;> omega

/-- C8 counterexample: on the realistic abnormal-termination trace where the
transport fires `error` and then `close`, the session invokes
`failAllPendingRequests` twice, not exactly once; and the code keeps its
message listener attached, so a frame delivered after `close` still
dispatches into the store (here an insight frame overwrites the errored
insights field). -/
theorem session_failAll_counterexample :
    (runSession ⟨[mkPendingAd 0], true, 0⟩ [WsEvent.error, WsEvent.close]).failCount = 2 ∧
    ¬ (runSession ⟨[mkPendingAd 0], true, 0⟩ [WsEvent.error, WsEvent.close]).failCount = 1 ∧
    (runSession ⟨[mkPendingAd 0], true, 0⟩
        [WsEvent.close,
         WsEvent.message none
           ⟨MsgType.insight, none, some 0, none, none, none, none, some [⟨"i", "e"⟩]⟩]).ads ≠
      (runSession ⟨[mkPendingAd 0], true, 0⟩ [WsEvent.close]).ads := by
  refine ⟨by decide, by decide, by decide⟩

/-- C8 amended: `failAllPendingRequests` runs once per delivered close or
error event — twice on the error-then-close sequence — but it is
idempotent, so the store after both events equals the store after a single
invocation; the session never detaches its message listener, so the absence
of post-close dispatch is a transport guarantee, not enforced by this code. -/
theorem session_failAll_perEvent (ads0 : List AdData) (c : Bool) (events : List WsEvent) :
    (runSession ⟨ads0, c, 0⟩ events).failCount = events.countP isTerminalEvent ∧
    (runSession ⟨ads0, c, 0⟩ [WsEvent.error, WsEvent.close]).ads = failAllPendingRequests ads0 ∧
    (runSession ⟨ads0, c, 0⟩ [WsEvent.error, WsEvent.close]).isConnected = false := by
  refine ⟨by simpa using runSession_failCount events ⟨ads0, c, 0⟩, ?_, rfl⟩
  show failAllPendingRequests (failAllPendingRequests ads0) = failAllPendingRequests ads0
  exact failAllPendingRequests_idem ads0

/-- Little-endian u32 round-trip for lengths below 2^32. -/
theorem readUint32LE_roundTrip (n : Nat) (rest : List Nat) (h : n < 4294967296) :
    readUint32LE (uint32LEBytes n ++ rest) = some n := by
  simp only [uint32LEBytes, List.cons_append, List.nil_append, readUint32LE]
  congr 1
  omega

/-- C3: decoding a well-formed binary frame (4-byte little-endian length L,
then exactly L metadata bytes, then audio) splits at offset 4+L, recovering
the metadata bytes verbatim — hence the downstream JSON parse and schema
validation see exactly the original metadata text — and the audio remainder
verbatim, including an empty remainder; and a length prefix running past
the buffer is a decode failure. -/
theorem decodeBinaryFrame_spec :
    (∀ meta audio : List Nat, meta.length < 4294967296 →
      decodeBinaryFrame (encodeBinaryFrame meta audio) = some (meta, audio)) ∧
    (∀ (bytes : List Nat) (l : Nat), readUint32LE bytes = some l →
      bytes.length < 4 + l → decodeBinaryFrame bytes = none) := by
  constructor
  · intro meta audio h
    have h4 : (uint32LEBytes meta.length).length = 4 := by simp [uint32LEBytes]
    have hread := readUint32LE_roundTrip meta.length (meta ++ audio) h
    simp only [decodeBinaryFrame, encodeBinaryFrame, List.append_assoc, hread]
    have hlen : (uint32LEBytes meta.length ++ (meta ++ audio)).length
        = 4 + (meta.length + audio.length) := by
      rw [List.length_append, h4, List.length_append]
    rw [if_pos (by rw [hlen]; omega)]
    have hdrop4 : (uint32LEBytes meta.length ++ (meta ++ audio)).drop 4 = meta ++ audio := by
      rw [← h4, List.drop_left]
    have hdropAll : (uint32LEBytes meta.length ++ (meta ++ audio)).drop (4 + meta.length)
        = audio := by
      rw [← List.drop_drop, hdrop4, List.drop_left]
    rw [hdrop4, hdropAll, List.take_left]
  · intro bytes l hread hlen
    simp only [decodeBinaryFrame, hread]
    rw [if_neg (by omega)]

/-- Witness for C3: a concrete frame with 3 metadata bytes and 2 audio
bytes, the same frame with an empty audio remainder, and a buffer whose
length prefix (10) exceeds its size. -/
theorem decodeBinaryFrame_spec_witness :
    decodeBinaryFrame (encodeBinaryFrame [104, 105, 33] [7, 9]) = some ([104, 105, 33], [7, 9]) ∧
    decodeBinaryFrame (encodeBinaryFrame [104, 105, 33] []) = some ([104, 105, 33], []) ∧
    decodeBinaryFrame [10, 0, 0, 0, 1, 2] = none :=
  ⟨decodeBinaryFrame_spec.1 _ _ (by decide),
    decodeBinaryFrame_spec.1 _ _ (by decide),
    decodeBinaryFrame_spec.2 [10, 0, 0, 0, 1, 2] 10 (by decide) (by decide)⟩

/-- The last element of a nonempty list does not depend on the fallback
default. -/
theorem getLastD_default_irrel {α : Type} (a : α) (l : List α) (d1 d2 : α) :
    (a :: l).getLast?.getD d1 = (a :: l).getLast?.getD d2 := by
  cases h : (a :: l).getLast? with
  | none => simp at h
  | some x => rfl

/-- Folding further unfocused ready events over a state holding exactly one
ready batch keeps a single accumulator, appends each index in order, stamps
the batch with the latest event time, rearms the 5-second timer on every
event, and surfaces nothing. -/
theorem foldReady_invariant (events : List (Int × Nat)) :
    ∀ (s : NotificationState) (acc : List Int) (t0 : Nat),
      s.batchedUpdates = [⟨BatchKind.ready, acc, t0⟩] →
      (∀ e ∈ events, s.activeTrackIndex ≠ some e.1) →
      events.foldl (fun s e => handleTrackUpdate "" e.2 e.1 UpdateKind.ready s) s
        = { s with
            batchedUpdates :=
              [⟨BatchKind.ready, acc ++ events.map Prod.fst, (events.map Prod.snd).getLastD t0⟩]
            batchTimer :=
              if events.isEmpty then s.batchTimer
              else some ((events.map Prod.snd).getLastD t0 + 5000) } := by
  induction events with
  | nil =>
    intro s acc t0 hs _
    simp [← hs]
  | cons e es ih =>
    obtain ⟨i, t⟩ := e
    intro s acc t0 hs hunf
    have hhead : s.activeTrackIndex ≠ some i := hunf (i, t) (List.mem_cons_self _ _)
    have hstep : handleTrackUpdate "" t i UpdateKind.ready s
        = { s with
            batchedUpdates := [⟨BatchKind.ready, acc ++ [i], t⟩]
            batchTimer := some (t + 5000) } := by
      simp [handleTrackUpdate, hhead, addToBatch, hs, updateFirstBatch]
    have hih := ih
      ({ s with
          batchedUpdates := [⟨BatchKind.ready, acc ++ [i], t⟩]
          batchTimer := some (t + 5000) })
      (acc ++ [i]) t rfl (fun e he => hunf e (List.mem_cons_of_mem _ he))
    rw [List.foldl_cons, hstep, hih]
    cases es with
    | nil => simp
    | cons f fs =>
      simp [List.getLastD_cons, List.append_assoc]
      exact getLastD_default_irrel f.2 (fs.map Prod.snd) t t0

/-- C7: a run of ready events for unfocused items starting from an empty
accumulator builds one single ready batch holding the indexes in order,
rearms the 5-second quiet timer at each event (so it ends armed at the last
event time plus 5000 ms) and surfaces nothing; the subsequent flush emits
exactly one batch notification — message listing the 1-based item numbers
comma-joined when at most three items accumulated, else the generic
"N more tracks completed" summary — and clears the accumulator and timer. -/
theorem notificationReadyBatching (events : List (Int × Nat))
    (s0 sEnd sFlushed : NotificationState) (ids : Nat → String) (tFlush : Nat)
    (hne : events ≠ [])
    (hempty : s0.batchedUpdates = [])
    (hunf : ∀ e ∈ events, s0.activeTrackIndex ≠ some e.1)
    (hEnd : sEnd = events.foldl (fun s e => handleTrackUpdate "" e.2 e.1 UpdateKind.ready s) s0)
    (hFl : sFlushed = processBatchedUpdates ids tFlush sEnd) :
    sEnd.batchedUpdates
      = [⟨BatchKind.ready, events.map Prod.fst, (events.map Prod.snd).getLastD 0⟩] ∧
    sEnd.batchTimer = some ((events.map Prod.snd).getLastD 0 + 5000) ∧
    sEnd.notifications = s0.notifications ∧
    sFlushed.notifications
      = s0.notifications ++
        [⟨ids 0, NotificationType.batch,
          "🎉 " ++ toString events.length ++ " track"
            ++ (if events.length > 1 then "s" else "") ++ " ready!",
          if events.length > 3 then toString events.length ++ " more tracks completed"
          else "Tracks "
            ++ String.intercalate ", " (events.map fun e => toString (e.1 + 1))
            ++ " ready to play",
          none, tFlush, 4000⟩] ∧
    sFlushed.batchedUpdates = [] ∧
    sFlushed.batchTimer = none := by
  cases events with
  | nil => exact absurd rfl hne
  | cons e es =>
    obtain ⟨i, t⟩ := e
    have hhead : s0.activeTrackIndex ≠ some i := hunf (i, t) (List.mem_cons_self _ _)
    have hstep : handleTrackUpdate "" t i UpdateKind.ready s0
        = { s0 with
            batchedUpdates := [⟨BatchKind.ready, [i], t⟩]
            batchTimer := some (t + 5000) } := by
      simp [handleTrackUpdate, hhead, addToBatch, hempty]
    have hinv := foldReady_invariant es
      ({ s0 with
          batchedUpdates := [⟨BatchKind.ready, [i], t⟩]
          batchTimer := some (t + 5000) })
      [i] t rfl (fun e he => hunf e (List.mem_cons_of_mem _ he))
    rw [List.foldl_cons, hstep, hinv] at hEnd
    have hbu : sEnd.batchedUpdates
        = [⟨BatchKind.ready, i :: es.map Prod.fst, (es.map Prod.snd).getLastD t⟩] := by
      rw [hEnd]
      simp
    have hnotif : sEnd.notifications = s0.notifications := by
      rw [hEnd]
    have hlastD : (((i, t) :: es).map Prod.snd).getLastD 0 = (es.map Prod.snd).getLastD t := by
      rw [List.map_cons, List.getLastD_cons]
    refine ⟨?_, ?_, hnotif, ?_, by rw [hFl]; rfl, by rw [hFl]; rfl⟩
    · rw [hbu, hlastD]
      simp
    · rw [hEnd, hlastD]
      cases es with
      | nil => simp
      | cons f fs => simp [List.getLastD_cons]
    · rw [hFl, processBatchedUpdates, hbu]
      simp only [flushBatches]
      rw [if_pos (by simp)]
      simp [flushBatches, addNotification, createBatchNotification, hnotif,
        List.map_map, Function.comp]
      rfl

/-- Witness for C7: three ready events for unfocused items 0, 1 and 2
within one second flush into exactly one batch notification reading
"Tracks 1, 2, 3 ready to play". -/
theorem notificationReadyBatching_witness :
    (processBatchedUpdates (fun _ => "n1") 6000
        (([((0 : Int), (100 : Nat)), (1, 600), (2, 900)]).foldl
          (fun s e => handleTrackUpdate "" e.2 e.1 UpdateKind.ready s)
          ⟨[], none, [], none⟩)).notifications
      = [⟨"n1", NotificationType.batch, "🎉 3 tracks ready!", "Tracks 1, 2, 3 ready to play",
          none, 6000, 4000⟩] := by
  have h := notificationReadyBatching [((0 : Int), (100 : Nat)), (1, 600), (2, 900)]
    ⟨[], none, [], none⟩ _ _ (fun _ => "n1") 6000 (by decide) rfl (by decide) rfl rfl
  rw [h.2.2.2.1]
  decide

/-- Witness for C6: loading is true for a null-plus-pending item and false
for an error-plus-pending item. -/
theorem getAdLoadingState_iff_witness :
    getAdLoadingState [loadAdNullPending] 0 = true ∧
    ¬ getAdLoadingState [loadAdErrPending] 0 = true :=
  ⟨(getAdLoadingState_iff [loadAdNullPending] 0 loadAdNullPending (by decide)).mpr (by decide),
    fun hh =>
      absurd ((getAdLoadingState_iff [loadAdErrPending] 0 loadAdErrPending (by decide)).mp hh)
        (by decide)⟩

end Avox
